import Mathlib

/-!
A shallow embedding of the ledger / payment-tracker service in `src/server.js`
(the "Gamble" repository).  JavaScript numbers are modelled as `JNum`
(either NaN or a finite rational; infinities and float rounding are not needed
by any route modelled here, which only adds, subtracts, multiplies and compares
request-sized quantities).  Request-body fields are modelled as `JsVal`
(undefined / null / number / string / boolean) so that the exact coercions
`parseFloat`, `parseInt` and truthiness tests performed by the handlers can be
reproduced.  Each HTTP handler becomes a pure function from a `ServerState`
(the in-memory `users`, `payments`, command-queue file and `pendingLinks`
object) and the request fields to a `Resp` (status code plus the response
fields the development needs) and the successor state.  `uuidv4()` results and
`Math.random()` draws are passed in as parameters; history-event timestamps,
which no handler ever branches on, are omitted from the embedded records.
-/

/-- A JavaScript number: NaN or a finite rational. -/
inductive JNum where
  | nan : JNum
  | fin : ℚ → JNum
deriving DecidableEq, Repr

namespace JNum

/-- JS `+` on numbers: NaN propagates. -/
def add : JNum → JNum → JNum
  | fin a, fin b => fin (a + b)
  | _, _ => nan

/-- JS `-` on numbers: NaN propagates. -/
def sub : JNum → JNum → JNum
  | fin a, fin b => fin (a - b)
  | _, _ => nan

/-- JS `*` on numbers: NaN propagates. -/
def mul : JNum → JNum → JNum
  | fin a, fin b => fin (a * b)
  | _, _ => nan

/-- JS `<=`: false whenever either side is NaN. -/
def jle : JNum → JNum → Bool
  | fin a, fin b => decide (a ≤ b)
  | _, _ => false

/-- JS `<`: false whenever either side is NaN. -/
def jlt : JNum → JNum → Bool
  | fin a, fin b => decide (a < b)
  | _, _ => false

/-- JS `>`: `a > b` is `b < a`; false whenever either side is NaN. -/
def jgt (a b : JNum) : Bool := jlt b a

/-- JS `===` on numbers: NaN is equal to nothing, itself included. -/
def jeq : JNum → JNum → Bool
  | fin a, fin b => decide (a = b)
  | _, _ => false

@[simp] theorem add_fin_fin (a b : ℚ) : add (fin a) (fin b) = fin (a + b) := rfl
@[simp] theorem add_nan_left (x : JNum) : add nan x = nan := by cases x <;> rfl
@[simp] theorem add_nan_right (x : JNum) : add x nan = nan := by cases x <;> rfl
@[simp] theorem sub_fin_fin (a b : ℚ) : sub (fin a) (fin b) = fin (a - b) := rfl
@[simp] theorem sub_nan_left (x : JNum) : sub nan x = nan := by cases x <;> rfl
@[simp] theorem sub_nan_right (x : JNum) : sub x nan = nan := by cases x <;> rfl
@[simp] theorem mul_fin_fin (a b : ℚ) : mul (fin a) (fin b) = fin (a * b) := rfl
@[simp] theorem mul_nan_left (x : JNum) : mul nan x = nan := by cases x <;> rfl
@[simp] theorem mul_nan_right (x : JNum) : mul x nan = nan := by cases x <;> rfl
@[simp] theorem jle_fin_fin (a b : ℚ) : jle (fin a) (fin b) = decide (a ≤ b) := rfl
@[simp] theorem jle_nan_left (x : JNum) : jle nan x = false := by cases x <;> rfl
@[simp] theorem jle_nan_right (x : JNum) : jle x nan = false := by cases x <;> rfl
@[simp] theorem jlt_fin_fin (a b : ℚ) : jlt (fin a) (fin b) = decide (a < b) := rfl
@[simp] theorem jlt_nan_left (x : JNum) : jlt nan x = false := by cases x <;> rfl
@[simp] theorem jlt_nan_right (x : JNum) : jlt x nan = false := by cases x <;> rfl
@[simp] theorem jgt_fin_fin (a b : ℚ) : jgt (fin a) (fin b) = decide (b < a) := rfl
@[simp] theorem jgt_nan_left (x : JNum) : jgt nan x = false := by cases x <;> rfl
@[simp] theorem jgt_nan_right (x : JNum) : jgt x nan = false := by cases x <;> rfl
@[simp] theorem jeq_fin_fin (a b : ℚ) : jeq (fin a) (fin b) = decide (a = b) := rfl
@[simp] theorem jeq_nan_left (x : JNum) : jeq nan x = false := by cases x <;> rfl
@[simp] theorem jeq_nan_right (x : JNum) : jeq x nan = false := by cases x <;> rfl

/-- Debiting and immediately re-crediting the same amount restores the
original balance value (this is exact because finite JS amounts here are
modelled as rationals; a NaN balance stays NaN on both sides). -/
theorem sub_add_cancel (x : JNum) (w : ℚ) : (x.sub (fin w)).add (fin w) = x := by
  cases x with
  | nan => rfl
  | fin b => simp

end JNum

/-- A JavaScript request-body value (the shapes `express.json` can deliver,
plus `undefined` for an absent field). Arrays/objects are not needed by the
modelled handlers. -/
inductive JsVal where
  | undef : JsVal
  | null : JsVal
  | num : JNum → JsVal
  | str : String → JsVal
  | bool : Bool → JsVal
deriving DecidableEq, Repr

/-- JS truthiness of a request value. -/
def truthy : JsVal → Bool
  | JsVal.undef => false
  | JsVal.null => false
  | JsVal.num JNum.nan => false
  | JsVal.num (JNum.fin q) => decide (q ≠ 0)
  | JsVal.str s => decide (s ≠ "")
  | JsVal.bool b => b

/-- Numeric value of a decimal-digit list (most significant first). -/
def digitsToNat (cs : List Char) : ℕ :=
  cs.foldl (fun n c => 10 * n + (c.toNat - 48)) 0

/-- Consume an optional leading sign; returns (isNegative, rest). -/
def parseSign : List Char → Bool × List Char
  | '-' :: rest => (true, rest)
  | '+' :: rest => (false, rest)
  | cs => (false, cs)

/-- `parseFloat` on a string: skip leading whitespace, optional sign, then
`digits [ '.' digits ]`; NaN when no digit is consumed.  (Exponent notation,
which no modelled caller produces, is not supported.) -/
def parseFloatStr (s : String) : JNum :=
  let cs := s.toList.dropWhile Char.isWhitespace
  let sr := parseSign cs
  let intPart := sr.2.takeWhile Char.isDigit
  let rest := sr.2.dropWhile Char.isDigit
  let fracPart := match rest with
    | '.' :: r => r.takeWhile Char.isDigit
    | _ => []
  if intPart.isEmpty ∧ fracPart.isEmpty then JNum.nan
  else
    let v : ℚ := (digitsToNat intPart : ℚ) + (digitsToNat fracPart : ℚ) / (10 ^ fracPart.length)
    JNum.fin (if sr.1 then -v else v)

/-- `parseInt` (radix 10) on a string: skip leading whitespace, optional sign,
then digits; NaN when no digit is consumed. -/
def parseIntStr (s : String) : JNum :=
  let cs := s.toList.dropWhile Char.isWhitespace
  let sr := parseSign cs
  let ds := sr.2.takeWhile Char.isDigit
  if ds.isEmpty then JNum.nan
  else JNum.fin (if sr.1 then -(digitsToNat ds : ℚ) else (digitsToNat ds : ℚ))

/-- JS truncation toward zero (what `parseInt` does to a finite number after
stringifying it). -/
def jsTrunc (q : ℚ) : ℤ := if 0 ≤ q then ⌊q⌋ else -⌊-q⌋

/-- `parseFloat` applied to a request value (JS coerces the argument to a
string first; for a finite number that round-trips to the same value). -/
def parseFloat : JsVal → JNum
  | JsVal.num x => x
  | JsVal.str s => parseFloatStr s
  | _ => JNum.nan

/-- `parseInt` applied to a request value. -/
def parseInt : JsVal → JNum
  | JsVal.num (JNum.fin q) => JNum.fin (jsTrunc q : ℚ)
  | JsVal.num JNum.nan => JNum.nan
  | JsVal.str s => parseIntStr s
  | _ => JNum.nan

/-- ASCII lower-casing, as `String.prototype.toLowerCase` behaves on the
usernames this system handles. -/
def jsLowerChar (c : Char) : Char :=
  if 'A' ≤ c ∧ c ≤ 'Z' then Char.ofNat (c.toNat + 32) else c

/-- Lower-case a whole string. -/
def jsLower (s : String) : String := String.mk (s.toList.map jsLowerChar)

/-- `String.prototype.trim`. -/
def jsTrim (s : String) : String :=
  String.mk (((s.toList.dropWhile Char.isWhitespace).reverse.dropWhile
    Char.isWhitespace).reverse)

/-- JS template-literal rendering of a number.  All amounts interpolated by
the modelled handlers are integers, which JS prints in plain decimal; the
non-integer case keeps the rational's own rendering. -/
def jsNumToString : JNum → String
  | JNum.nan => "NaN"
  | JNum.fin q => if q.den = 1 then toString q.num else toString q

/-- One entry of a user's `gameHistory` array (history timestamps, which no
handler reads back, are omitted). -/
inductive LedgerEvent where
  | blackjack (wager : JNum) (won : Bool) (playerValue dealerValue : JsVal)
      (winnings : JNum) : LedgerEvent
  | plinko (wager : JNum) (won : Bool) (multiplier : JsVal) (payout : JNum) : LedgerEvent
  | numberDraw (picked : JNum) (drawn : ℤ) (wager : JNum) (won : Bool)
      (winnings : JNum) : LedgerEvent
deriving DecidableEq, Repr

/-- One element of the `users` array of `server.js`. -/
structure User where
  id : String
  username : String
  balance : JNum
  totalWagered : JNum
  totalWon : JNum
  totalLost : JNum
  discordId : Option String := none
  discordTag : Option String := none
  gameHistory : List LedgerEvent := []
deriving DecidableEq, Repr

/-- One element of the `payments` array (a `PendingPayment`). -/
structure Payment where
  id : String
  from_ : String
  amount : JNum
  status : String
  paidAmount : Option JNum := none
deriving DecidableEq, Repr

/-- One element of the command-queue file (a `QueuedCommand`). -/
structure QueuedCommand where
  id : String
  command : String
  status : String
deriving DecidableEq, Repr

/-- The value stored under a linking code in `pendingLinks`
(`timestamp` is `Date.now()` in milliseconds). -/
structure LinkData where
  discordId : String
  discordTag : String
  timestamp : ℤ
deriving DecidableEq, Repr

/-- The mutable state of the service: the in-memory `users` and `payments`
arrays, the command-queue file contents, and the `pendingLinks` object
(modelled as an association list keyed by linking code). -/
structure ServerState where
  users : List User
  payments : List Payment
  commands : List QueuedCommand
  pendingLinks : List (String × LinkData)
deriving DecidableEq, Repr

/-- The response data the claims need: HTTP status, the `error` string of an
error response, and the numeric response fields of the game routes. -/
structure Resp where
  status : ℕ
  error : Option String := none
  winnings : Option JNum := none
  payout : Option JNum := none
  drawnNumber : Option ℤ := none
deriving DecidableEq, Repr

/-- Apply `f` to the first element satisfying `q` (JS finds the object with
`find` and mutates it in place; everything else is untouched). -/
def updateFirst (q : α → Bool) (f : α → α) : List α → List α
  | [] => []
  | a :: rest => if q a then f a :: rest else a :: updateFirst q f rest

/-- Remove the first element satisfying `q` (what
`arr.splice(arr.findIndex(q), 1)` does once an index was found). -/
def removeFirst (q : α → Bool) : List α → List α
  | [] => []
  | a :: rest => if q a then rest else a :: removeFirst q rest

/-- `users.find(u => u.username.toLowerCase() === username.toLowerCase())`. -/
def findUser (users : List User) (username : String) : Option User :=
  users.find? (fun u => jsLower u.username == jsLower username)

/-- In-place mutation of the user object `findUser` returns. -/
def updateUser (users : List User) (username : String) (f : User → User) : List User :=
  updateFirst (fun u => jsLower u.username == jsLower username) f users

/-- The balance of the account a later lookup of `username` would return. -/
def userBalance (st : ServerState) (username : String) : Option JNum :=
  (findUser st.users username).map User.balance

theorem updateFirst_cons_pos (q : α → Bool) (f : α → α) (a : α) (l : List α)
    (h : q a = true) : updateFirst q f (a :: l) = f a :: l := by
  simp [updateFirst, h]

theorem updateFirst_cons_neg (q : α → Bool) (f : α → α) (a : α) (l : List α)
    (h : q a = false) : updateFirst q f (a :: l) = a :: updateFirst q f l := by
  simp [updateFirst, h]

theorem removeFirst_cons_pos (q : α → Bool) (a : α) (l : List α)
    (h : q a = true) : removeFirst q (a :: l) = l := by
  simp [removeFirst, h]

theorem removeFirst_cons_neg (q : α → Bool) (a : α) (l : List α)
    (h : q a = false) : removeFirst q (a :: l) = a :: removeFirst q l := by
  simp [removeFirst, h]

theorem find_updateFirst (q : α → Bool) (f : α → α) (l : List α)
    (hf : ∀ a, q a = true → q (f a) = true) :
    (updateFirst q f l).find? q = (l.find? q).map f := by
  induction l with
  | nil => rfl
  | cons a rest ih =>
    by_cases ha : q a = true
    · rw [updateFirst_cons_pos q f a rest ha,
        List.find?_cons_of_pos _ (hf a ha), List.find?_cons_of_pos _ ha]
      rfl
    · have ha' : q a = false := by simpa using ha
      rw [updateFirst_cons_neg q f a rest ha',
        List.find?_cons_of_neg _ ha, List.find?_cons_of_neg _ ha]
      exact ih

theorem updateFirst_updateFirst (q : α → Bool) (f g : α → α) (l : List α)
    (hf : ∀ a, q a = true → q (f a) = true) :
    updateFirst q g (updateFirst q f l) = updateFirst q (fun a => g (f a)) l := by
  induction l with
  | nil => rfl
  | cons a rest ih =>
    by_cases ha : q a = true
    · rw [updateFirst_cons_pos q f a rest ha,
        updateFirst_cons_pos q g (f a) rest (hf a ha),
        updateFirst_cons_pos q (fun a => g (f a)) a rest ha]
    · have ha' : q a = false := by simpa using ha
      rw [updateFirst_cons_neg q f a rest ha',
        updateFirst_cons_neg q g a _ ha',
        updateFirst_cons_neg q (fun a => g (f a)) a rest ha', ih]

theorem updateFirst_id (q : α → Bool) (l : List α) :
    updateFirst q (fun a => a) l = l := by
  induction l with
  | nil => rfl
  | cons a rest ih =>
    by_cases ha : q a = true
    · rw [updateFirst_cons_pos q _ a rest ha]
    · have ha' : q a = false := by simpa using ha
      rw [updateFirst_cons_neg q _ a rest ha', ih]

theorem updateFirst_congr (q : α → Bool) (f g : α → α) (l : List α)
    (h : ∀ a, f a = g a) : updateFirst q f l = updateFirst q g l := by
  induction l with
  | nil => rfl
  | cons a rest ih =>
    by_cases ha : q a = true
    · rw [updateFirst_cons_pos q f a rest ha, updateFirst_cons_pos q g a rest ha, h a]
    · have ha' : q a = false := by simpa using ha
      rw [updateFirst_cons_neg q f a rest ha', updateFirst_cons_neg q g a rest ha', ih]

theorem mem_updateFirst (q : α → Bool) (f : α → α) (l : List α) (a : α) :
    a ∈ updateFirst q f l → a ∈ l ∨ ∃ b, b ∈ l ∧ a = f b := by
  induction l with
  | nil => intro ha; simp [updateFirst] at ha
  | cons c rest ih =>
    intro ha
    by_cases hc : q c = true
    · rw [updateFirst_cons_pos q f c rest hc] at ha
      rcases List.mem_cons.mp ha with h1 | h1
      · exact Or.inr ⟨c, List.mem_cons_self c rest, h1⟩
      · exact Or.inl (List.mem_cons_of_mem c h1)
    · have hc' : q c = false := by simpa using hc
      rw [updateFirst_cons_neg q f c rest hc'] at ha
      rcases List.mem_cons.mp ha with h1 | h1
      · exact Or.inl (h1 ▸ List.mem_cons_self c rest)
      · rcases ih h1 with h2 | ⟨b, hb, hab⟩
        · exact Or.inl (List.mem_cons_of_mem c h2)
        · exact Or.inr ⟨b, List.mem_cons_of_mem c hb, hab⟩

theorem mem_removeFirst (q : α → Bool) (l : List α) (a : α) :
    a ∈ removeFirst q l → a ∈ l := by
  induction l with
  | nil => intro ha; simp [removeFirst] at ha
  | cons c rest ih =>
    intro ha
    by_cases hc : q c = true
    · rw [removeFirst_cons_pos q c rest hc] at ha
      exact List.mem_cons_of_mem c ha
    · have hc' : q c = false := by simpa using hc
      rw [removeFirst_cons_neg q c rest hc'] at ha
      rcases List.mem_cons.mp ha with h1 | h1
      · exact h1 ▸ List.mem_cons_self c rest
      · exact List.mem_cons_of_mem c (ih h1)

theorem find_removeFirst_of_unique (q : α → Bool) (l : List α) :
    l.countP q ≤ 1 → ∀ a, l.find? q = some a →
    (removeFirst q l).find? q = none := by
  induction l with
  | nil => intro _ a ha; simp at ha
  | cons c rest ih =>
    intro hu a ha
    by_cases hc : q c = true
    · rw [removeFirst_cons_pos q c rest hc, List.find?_eq_none]
      intro x hx
      have hcount : rest.countP q = 0 := by
        have h2 := List.countP_cons_of_pos (p := q) (l := rest) hc
        omega
      have h3 := (List.countP_eq_zero (p := q)).mp hcount x hx
      simpa using h3
    · have hc' : q c = false := by simpa using hc
      rw [removeFirst_cons_neg q c rest hc', List.find?_cons_of_neg _ hc]
      apply ih ?_ a ?_
      · have h2 := List.countP_cons_of_neg (p := q) (l := rest) hc
        omega
      · rwa [List.find?_cons_of_neg _ hc] at ha

/-- `user.balance += x` as a function on the user object. -/
def balanceAdd (x : JNum) (u : User) : User := { u with balance := u.balance.add x }

/-- `user.balance -= x` as a function on the user object. -/
def balanceSub (x : JNum) (u : User) : User := { u with balance := u.balance.sub x }

@[simp] theorem balanceAdd_username (x : JNum) (u : User) :
    (balanceAdd x u).username = u.username := rfl

@[simp] theorem balanceSub_username (x : JNum) (u : User) :
    (balanceSub x u).username = u.username := rfl

@[simp] theorem balanceAdd_balance (x : JNum) (u : User) :
    (balanceAdd x u).balance = u.balance.add x := rfl

@[simp] theorem balanceSub_balance (x : JNum) (u : User) :
    (balanceSub x u).balance = u.balance.sub x := rfl

/-- The bearer-token check of `/api/report-payment`:
`!token || token !== process.env.PAYMENT_REPORT_TOKEN` (a missing header, an
empty token, an unset environment secret, or a mismatch all reject). -/
def tokenOk (token envToken : Option String) : Bool :=
  match token, envToken with
  | some t, some e => decide (t ≠ "") && (t == e)
  | _, _ => false

/-- `POST /api/report-payment` (server.js:185-229).  `pid` and `uid` stand for
the two `uuidv4()` draws (payment id and, when the payer is new, user id). -/
def reportPayment (st : ServerState) (token envToken : Option String)
    (from_ : String) (amount : JsVal) (pid uid : String) : Resp × ServerState :=
  if ¬ tokenOk token envToken then
    ({ status := 401, error := some "Unauthorized" }, st)
  else if from_ == "" || ¬ truthy amount then
    ({ status := 400, error := some "Missing from or amount" }, st)
  else
    let payment : Payment :=
      { id := pid, from_ := from_, amount := parseFloat amount, status := "pending" }
    let payments2 := st.payments ++ [payment]
    match findUser st.users from_ with
    | some _ =>
      let users2 := updateUser st.users from_ (balanceAdd payment.amount)
      ({ status := 200 }, { st with payments := payments2, users := users2 })
    | none =>
      let newUser : User :=
        { id := uid, username := jsTrim from_, balance := JNum.fin 0,
          totalWagered := JNum.fin 0, totalWon := JNum.fin 0,
          totalLost := JNum.fin 0 }
      ({ status := 200 },
       { st with payments := payments2,
                 users := st.users ++ [balanceAdd payment.amount newUser] })

/-- The in-place mutation `/api/pay` performs on the resolved payment:
`payment.status = 'paid'; payment.paidAmount = doubleAmount`. -/
def payUpdate (doubleAmount : JNum) (p : Payment) : Payment :=
  { p with status := "paid", paidAmount := some doubleAmount }

/-- `POST /api/pay` (server.js:233-275).  `cmdId` is the `uuidv4()` draw for
the queued command; `enqueueThrows` models an exception escaping the
command-queueing `try` block (the payment is already marked paid and saved
before that block runs). -/
def pay (st : ServerState) (paymentId : String) (cmdId : String)
    (enqueueThrows : Bool) : Resp × ServerState :=
  match st.payments.find? (fun p => p.id == paymentId) with
  | none => ({ status := 404, error := some "Payment not found" }, st)
  | some payment =>
    let doubleAmount := payment.amount.mul (JNum.fin 2)
    let player := payment.from_
    let payments2 := updateFirst (fun p => p.id == paymentId)
      (payUpdate doubleAmount) st.payments
    if enqueueThrows then
      ({ status := 500, error := some "Failed to queue command" },
       { st with payments := payments2 })
    else
      let cmdObj : QueuedCommand :=
        { id := cmdId,
          command := "/pay " ++ player ++ " " ++ jsNumToString doubleAmount,
          status := "pending" }
      ({ status := 200 },
       { st with payments := payments2, commands := st.commands ++ [cmdObj] })

/-- `POST /api/lose` (server.js:278-290): deny a payment by splicing out the
first record with the given id. -/
def lose (st : ServerState) (paymentId : String) : Resp × ServerState :=
  match st.payments.find? (fun p => p.id == paymentId) with
  | none => ({ status := 404, error := some "Payment not found" }, st)
  | some _ =>
    ({ status := 200 },
     { st with payments := removeFirst (fun p => p.id == paymentId) st.payments })

/-- The mutation linking an existing user to a Discord identity:
`user.discordId = linkData.discordId; user.discordTag = linkData.discordTag`. -/
def linkUpdate (linkData : LinkData) (u : User) : User :=
  { u with discordId := some linkData.discordId,
           discordTag := some linkData.discordTag }

/-- `POST /api/link-account` (server.js:403-454).  `now` is `Date.now()` in
milliseconds and `uid` the `uuidv4()` draw used when a new user is created. -/
def linkAccount (st : ServerState) (username linkingCode : String) (now : ℤ)
    (uid : String) : Resp × ServerState :=
  if username == "" || linkingCode == "" then
    ({ status := 400, error := some "Username and linking code required" }, st)
  else
    match st.pendingLinks.find? (fun kv => kv.1 == linkingCode) with
    | none => ({ status := 400, error := some "Invalid or expired linking code" }, st)
    | some kv =>
      if 24 * 60 * 60 * 1000 < now - kv.2.timestamp then
        ({ status := 400, error := some "Linking code expired" },
         { st with pendingLinks :=
            st.pendingLinks.filter (fun kv2 => !(kv2.1 == linkingCode)) })
      else
        let users2 :=
          match findUser st.users username with
          | some _ => updateUser st.users username (linkUpdate kv.2)
          | none => st.users ++
              [{ id := uid, username := jsTrim username,
                 discordId := some kv.2.discordId,
                 discordTag := some kv.2.discordTag,
                 balance := JNum.fin 0, totalWagered := JNum.fin 0,
                 totalWon := JNum.fin 0, totalLost := JNum.fin 0 }]
        let links2 := st.pendingLinks.filter (fun kv2 => !(kv2.1 == linkingCode))
        ({ status := 200 }, { st with users := users2, pendingLinks := links2 })

/-- The mutation `/api/games/blackjack` applies to the playing user:
debit the bet, credit `2 x bet` on a win, update the three counters and
append the history entry. -/
def blackjackUpdate (betAmount : JNum) (wonB : Bool)
    (playerValue dealerValue : JsVal) (u : User) : User :=
  let winnings := if wonB then betAmount.mul (JNum.fin 2) else JNum.fin 0
  { u with
    balance := if wonB then (u.balance.sub betAmount).add winnings
               else u.balance.sub betAmount,
    totalWon := if wonB then u.totalWon.add winnings else u.totalWon,
    totalLost := if wonB then u.totalLost else u.totalLost.add betAmount,
    totalWagered := u.totalWagered.add betAmount,
    gameHistory := u.gameHistory ++
      [LedgerEvent.blackjack betAmount wonB playerValue dealerValue winnings] }

/-- `POST /api/games/blackjack` (server.js:622-669). -/
def blackjack (st : ServerState) (username : String)
    (wager won dealerValue playerValue : JsVal) : Resp × ServerState :=
  match findUser st.users username with
  | none => ({ status := 404, error := some "User not found" }, st)
  | some user =>
    let betAmount := parseFloat wager
    if betAmount.jle (JNum.fin 0) || betAmount.jgt user.balance then
      ({ status := 400, error := some "Invalid bet amount" }, st)
    else
      let wonB := truthy won
      let winnings := if wonB then betAmount.mul (JNum.fin 2) else JNum.fin 0
      let users2 := updateUser st.users username
        (blackjackUpdate betAmount wonB playerValue dealerValue)
      ({ status := 200, winnings := some winnings }, { st with users := users2 })

/-- The mutation `/api/games/plinko` applies to the playing user: debit the
bet, credit the client-reported payout, update counters, append history. -/
def plinkoUpdate (betAmount payout : JNum) (wonB : Bool) (multiplier : JsVal)
    (u : User) : User :=
  { u with
    balance := (u.balance.sub betAmount).add payout,
    totalWon := if wonB then u.totalWon.add payout else u.totalWon,
    totalLost := if wonB then u.totalLost else u.totalLost.add betAmount,
    totalWagered := u.totalWagered.add betAmount,
    gameHistory := u.gameHistory ++
      [LedgerEvent.plinko betAmount wonB multiplier payout] }

/-- `POST /api/games/plinko` (server.js:672-718): the payout is whatever the
client reports in `winAmount`. -/
def plinko (st : ServerState) (username : String)
    (wager winAmount multiplier : JsVal) : Resp × ServerState :=
  match findUser st.users username with
  | none => ({ status := 404, error := some "User not found" }, st)
  | some user =>
    let betAmount := parseFloat wager
    if betAmount.jle (JNum.fin 0) || betAmount.jgt user.balance then
      ({ status := 400, error := some "Invalid bet amount" }, st)
    else
      let payout := parseFloat winAmount
      let wonB := payout.jgt betAmount
      let users2 := updateUser st.users username
        (plinkoUpdate betAmount payout wonB multiplier)
      ({ status := 200, payout := some payout }, { st with users := users2 })

/-- The number drawn from one `Math.random()` result:
`Math.floor(rand * 10) + 1`. -/
def drawnOf (rand : ℚ) : ℤ := ⌊rand * 10⌋ + 1

/-- The mutation `/api/games/number` applies to the playing user: debit the
bet, credit `10 x bet` on a match, update counters, append history. -/
def numberUpdate (pickedNumber : JNum) (drawnNumber : ℤ) (betAmount : JNum)
    (wonB : Bool) (u : User) : User :=
  let winnings := if wonB then betAmount.mul (JNum.fin 10) else JNum.fin 0
  { u with
    balance := if wonB then (u.balance.sub betAmount).add winnings
               else u.balance.sub betAmount,
    totalWon := if wonB then u.totalWon.add winnings else u.totalWon,
    totalLost := if wonB then u.totalLost else u.totalLost.add betAmount,
    totalWagered := u.totalWagered.add betAmount,
    gameHistory := u.gameHistory ++
      [LedgerEvent.numberDraw pickedNumber drawnNumber betAmount wonB winnings] }

/-- `POST /api/games/number` (server.js:723-777).  `rand` is the
`Math.random()` draw, a value in `[0, 1)`. -/
def numberGame (st : ServerState) (username : String) (wager number : JsVal)
    (rand : ℚ) : Resp × ServerState :=
  match findUser st.users username with
  | none => ({ status := 404, error := some "User not found" }, st)
  | some user =>
    let betAmount := parseFloat wager
    let pickedNumber := parseInt number
    if betAmount.jle (JNum.fin 0) || betAmount.jgt user.balance then
      ({ status := 400, error := some "Invalid bet amount" }, st)
    else if pickedNumber.jlt (JNum.fin 1) || pickedNumber.jgt (JNum.fin 10) then
      ({ status := 400, error := some "Number must be between 1 and 10" }, st)
    else
      let drawnNumber := drawnOf rand
      let wonB := (JNum.fin (drawnNumber : ℚ)).jeq pickedNumber
      let winnings := if wonB then betAmount.mul (JNum.fin 10) else JNum.fin 0
      let users2 := updateUser st.users username
        (numberUpdate pickedNumber drawnNumber betAmount wonB)
      ({ status := 200, winnings := some winnings,
         drawnNumber := some drawnNumber }, { st with users := users2 })

/-- `POST /api/withdraw` (server.js:782-824).  `cmdId` is the `uuidv4()` draw
for the queued payout command; `enqueueThrows` models an exception escaping the
command-queueing `try` block, in which case the handler re-credits the debited
amount before answering 500. -/
def withdraw (st : ServerState) (username : String) (amount : JsVal)
    (cmdId : String) (enqueueThrows : Bool) : Resp × ServerState :=
  match findUser st.users username with
  | none => ({ status := 404, error := some "User not found" }, st)
  | some user =>
    let withdrawAmount := parseFloat amount
    if withdrawAmount.jle (JNum.fin 0) || withdrawAmount.jgt user.balance then
      ({ status := 400, error := some "Invalid withdrawal amount" }, st)
    else
      let usersDebited := updateUser st.users username (balanceSub withdrawAmount)
      if enqueueThrows then
        let usersRefunded := updateUser usersDebited username
          (balanceAdd withdrawAmount)
        ({ status := 500, error := some "Failed to queue withdrawal" },
         { st with users := usersRefunded })
      else
        let cmdObj : QueuedCommand :=
          { id := cmdId,
            command := "/pay " ++ username ++ " " ++ jsNumToString withdrawAmount,
            status := "pending" }
        ({ status := 200 },
         { st with users := usersDebited, commands := st.commands ++ [cmdObj] })

theorem findUser_updateUser (users : List User) (uname : String) (f : User → User)
    (hf : ∀ u, (f u).username = u.username) :
    findUser (updateUser users uname f) uname = (findUser users uname).map f := by
  apply find_updateFirst
  intro a ha
  have h1 : jsLower (f a).username = jsLower a.username := by rw [hf a]
  rw [h1]
  exact ha

theorem blackjack_ok (st : ServerState) (uname : String) (u : User) (b w : ℚ)
    (wager won dealerValue playerValue : JsVal)
    (hfind : findUser st.users uname = some u) (hb : u.balance = JNum.fin b)
    (hw : parseFloat wager = JNum.fin w) (h0 : 0 < w) (hwb : w ≤ b) :
    (blackjack st uname wager won dealerValue playerValue).1.status = 200 ∧
    (blackjack st uname wager won dealerValue playerValue).1.winnings =
      some (if truthy won then JNum.fin (2 * w) else JNum.fin 0) ∧
    userBalance (blackjack st uname wager won dealerValue playerValue).2 uname =
      some (JNum.fin (b - w + (if truthy won then 2 * w else 0))) := by
  have hjle : (JNum.fin w).jle (JNum.fin 0) = false := by
    simp only [JNum.jle_fin_fin, decide_eq_false_iff_not, not_le]
    exact h0
  have hjgt : (JNum.fin w).jgt (JNum.fin b) = false := by
    simp only [JNum.jgt_fin_fin, decide_eq_false_iff_not, not_lt]
    exact hwb
  refine ⟨?_, ?_, ?_⟩
  · simp only [blackjack, hfind, hw, hb, hjle, hjgt, Bool.or_self,
      Bool.false_eq_true, if_false]
  · simp only [blackjack, hfind, hw, hb, hjle, hjgt, Bool.or_self,
      Bool.false_eq_true, if_false]
    by_cases hwon : truthy won = true
    · simp only [hwon, if_true, JNum.mul_fin_fin, Option.some.injEq, JNum.fin.injEq]
      ring
    · have hwon2 : truthy won = false := by simpa using hwon
      simp [hwon2]
  · simp only [userBalance, blackjack, hfind, hw, hb, hjle, hjgt, Bool.or_self,
      Bool.false_eq_true, if_false]
    rw [findUser_updateUser st.users uname
      (blackjackUpdate (JNum.fin w) (truthy won) playerValue dealerValue)
      (fun v => rfl), hfind]
    by_cases hwon : truthy won = true
    · simp only [Option.map_some, Option.map_some', blackjackUpdate, hwon,
        if_true, hb, JNum.sub_fin_fin, JNum.mul_fin_fin, JNum.add_fin_fin,
        Option.some.injEq, JNum.fin.injEq]
      ring
    · have hwon2 : truthy won = false := by simpa using hwon
      simp only [Option.map_some, Option.map_some', blackjackUpdate, hwon2,
        Bool.false_eq_true, if_false, hb, JNum.sub_fin_fin,
        Option.some.injEq, JNum.fin.injEq]
      ring

theorem blackjack_reject (st : ServerState) (uname : String) (u : User) (b w : ℚ)
    (wager won dealerValue playerValue : JsVal)
    (hfind : findUser st.users uname = some u) (hb : u.balance = JNum.fin b)
    (hw : parseFloat wager = JNum.fin w) (hrej : w ≤ 0 ∨ b < w) :
    (blackjack st uname wager won dealerValue playerValue).1.status = 400 ∧
    (blackjack st uname wager won dealerValue playerValue).2 = st := by
  have hguard : ((JNum.fin w).jle (JNum.fin 0) || (JNum.fin w).jgt (JNum.fin b)) = true := by
    simp only [JNum.jle_fin_fin, JNum.jgt_fin_fin, Bool.or_eq_true, decide_eq_true_eq]
    exact hrej
  constructor <;>
    simp only [blackjack, hfind, hw, hb, hguard, eq_self_iff_true, if_true]

theorem plinko_ok (st : ServerState) (uname : String) (u : User) (b w : ℚ)
    (wager winAmount multiplier : JsVal)
    (hfind : findUser st.users uname = some u) (hb : u.balance = JNum.fin b)
    (hw : parseFloat wager = JNum.fin w) (h0 : 0 < w) (hwb : w ≤ b) :
    (plinko st uname wager winAmount multiplier).1.status = 200 ∧
    (plinko st uname wager winAmount multiplier).1.payout =
      some (parseFloat winAmount) ∧
    userBalance (plinko st uname wager winAmount multiplier).2 uname =
      some (((JNum.fin b).sub (JNum.fin w)).add (parseFloat winAmount)) := by
  have hjle : (JNum.fin w).jle (JNum.fin 0) = false := by
    simp only [JNum.jle_fin_fin, decide_eq_false_iff_not, not_le]
    exact h0
  have hjgt : (JNum.fin w).jgt (JNum.fin b) = false := by
    simp only [JNum.jgt_fin_fin, decide_eq_false_iff_not, not_lt]
    exact hwb
  refine ⟨?_, ?_, ?_⟩
  · simp only [plinko, hfind, hw, hb, hjle, hjgt, Bool.or_self,
      Bool.false_eq_true, if_false]
  · simp only [plinko, hfind, hw, hb, hjle, hjgt, Bool.or_self,
      Bool.false_eq_true, if_false]
  · simp only [userBalance, plinko, hfind, hw, hb, hjle, hjgt, Bool.or_self,
      Bool.false_eq_true, if_false]
    rw [findUser_updateUser st.users uname
      (plinkoUpdate (JNum.fin w) (parseFloat winAmount)
        ((parseFloat winAmount).jgt (JNum.fin w)) multiplier)
      (fun v => rfl), hfind]
    simp only [Option.map_some, Option.map_some', plinkoUpdate, hb]

theorem plinko_reject (st : ServerState) (uname : String) (u : User) (b w : ℚ)
    (wager winAmount multiplier : JsVal)
    (hfind : findUser st.users uname = some u) (hb : u.balance = JNum.fin b)
    (hw : parseFloat wager = JNum.fin w) (hrej : w ≤ 0 ∨ b < w) :
    (plinko st uname wager winAmount multiplier).1.status = 400 ∧
    (plinko st uname wager winAmount multiplier).2 = st := by
  have hguard : ((JNum.fin w).jle (JNum.fin 0) || (JNum.fin w).jgt (JNum.fin b)) = true := by
    simp only [JNum.jle_fin_fin, JNum.jgt_fin_fin, Bool.or_eq_true, decide_eq_true_eq]
    exact hrej
  constructor <;>
    simp only [plinko, hfind, hw, hb, hguard, eq_self_iff_true, if_true]

theorem numberGame_ok (st : ServerState) (uname : String) (u : User) (b w : ℚ)
    (wager number : JsVal) (rand : ℚ)
    (hfind : findUser st.users uname = some u) (hb : u.balance = JNum.fin b)
    (hw : parseFloat wager = JNum.fin w) (h0 : 0 < w) (hwb : w ≤ b)
    (hpick : ((parseInt number).jlt (JNum.fin 1) ||
      (parseInt number).jgt (JNum.fin 10)) = false) :
    (numberGame st uname wager number rand).1.status = 200 ∧
    (numberGame st uname wager number rand).1.drawnNumber = some (drawnOf rand) ∧
    (numberGame st uname wager number rand).1.winnings =
      some (if (JNum.fin ((drawnOf rand : ℤ) : ℚ)).jeq (parseInt number)
            then JNum.fin (10 * w) else JNum.fin 0) ∧
    userBalance (numberGame st uname wager number rand).2 uname =
      some (JNum.fin (b - w +
        (if (JNum.fin ((drawnOf rand : ℤ) : ℚ)).jeq (parseInt number)
         then 10 * w else 0))) := by
  have hjle : (JNum.fin w).jle (JNum.fin 0) = false := by
    simp only [JNum.jle_fin_fin, decide_eq_false_iff_not, not_le]
    exact h0
  have hjgt : (JNum.fin w).jgt (JNum.fin b) = false := by
    simp only [JNum.jgt_fin_fin, decide_eq_false_iff_not, not_lt]
    exact hwb
  refine ⟨?_, ?_, ?_, ?_⟩
  · simp only [numberGame, hfind, hw, hb, hjle, hjgt, Bool.or_self,
      Bool.false_eq_true, if_false, hpick]
  · simp only [numberGame, hfind, hw, hb, hjle, hjgt, Bool.or_self,
      Bool.false_eq_true, if_false, hpick]
  · simp only [numberGame, hfind, hw, hb, hjle, hjgt, Bool.or_self,
      Bool.false_eq_true, if_false, hpick]
    by_cases hwon : (JNum.fin ((drawnOf rand : ℤ) : ℚ)).jeq (parseInt number) = true
    · simp only [hwon, if_true, JNum.mul_fin_fin, Option.some.injEq, JNum.fin.injEq]
      ring
    · have hwon2 : (JNum.fin ((drawnOf rand : ℤ) : ℚ)).jeq (parseInt number) = false := by
        simpa using hwon
      simp [hwon2]
  · simp only [userBalance, numberGame, hfind, hw, hb, hjle, hjgt, Bool.or_self,
      Bool.false_eq_true, if_false, hpick]
    rw [findUser_updateUser st.users uname
      (numberUpdate (parseInt number) (drawnOf rand) (JNum.fin w)
        ((JNum.fin ((drawnOf rand : ℤ) : ℚ)).jeq (parseInt number)))
      (fun v => rfl), hfind]
    by_cases hwon : (JNum.fin ((drawnOf rand : ℤ) : ℚ)).jeq (parseInt number) = true
    · simp only [Option.map_some, Option.map_some', numberUpdate, hwon, if_true,
        hb, JNum.sub_fin_fin, JNum.mul_fin_fin, JNum.add_fin_fin,
        Option.some.injEq, JNum.fin.injEq]
      ring
    · have hwon2 : (JNum.fin ((drawnOf rand : ℤ) : ℚ)).jeq (parseInt number) = false := by
        simpa using hwon
      simp only [Option.map_some, Option.map_some', numberUpdate, hwon2,
        Bool.false_eq_true, if_false, hb, JNum.sub_fin_fin,
        Option.some.injEq, JNum.fin.injEq]
      ring

theorem numberGame_reject (st : ServerState) (uname : String) (u : User) (b w : ℚ)
    (wager number : JsVal) (rand : ℚ)
    (hfind : findUser st.users uname = some u) (hb : u.balance = JNum.fin b)
    (hw : parseFloat wager = JNum.fin w) (hrej : w ≤ 0 ∨ b < w) :
    (numberGame st uname wager number rand).1.status = 400 ∧
    (numberGame st uname wager number rand).2 = st := by
  have hguard : ((JNum.fin w).jle (JNum.fin 0) || (JNum.fin w).jgt (JNum.fin b)) = true := by
    simp only [JNum.jle_fin_fin, JNum.jgt_fin_fin, Bool.or_eq_true, decide_eq_true_eq]
    exact hrej
  constructor <;>
    simp only [numberGame, hfind, hw, hb, hguard, eq_self_iff_true, if_true]

/-- Debit-then-refund leaves the user object unchanged. -/
theorem balanceAdd_balanceSub (w : ℚ) (u : User) :
    balanceAdd (JNum.fin w) (balanceSub (JNum.fin w) u) = u := by
  simp only [balanceAdd, balanceSub, JNum.sub_add_cancel]

theorem withdraw_notfound (st : ServerState) (uname : String) (amount : JsVal)
    (cmdId : String) (e : Bool) (hfind : findUser st.users uname = none) :
    (withdraw st uname amount cmdId e).1.status = 404 ∧
    (withdraw st uname amount cmdId e).2 = st := by
  constructor <;> simp only [withdraw, hfind]

theorem withdraw_reject (st : ServerState) (uname : String) (u : User) (b w : ℚ)
    (amount : JsVal) (cmdId : String) (e : Bool)
    (hfind : findUser st.users uname = some u) (hb : u.balance = JNum.fin b)
    (hw : parseFloat amount = JNum.fin w) (hrej : w ≤ 0 ∨ b < w) :
    (withdraw st uname amount cmdId e).1.status = 400 ∧
    (withdraw st uname amount cmdId e).2 = st := by
  have hguard : ((JNum.fin w).jle (JNum.fin 0) || (JNum.fin w).jgt (JNum.fin b)) = true := by
    simp only [JNum.jle_fin_fin, JNum.jgt_fin_fin, Bool.or_eq_true, decide_eq_true_eq]
    exact hrej
  constructor <;>
    simp only [withdraw, hfind, hw, hb, hguard, eq_self_iff_true, if_true]

theorem withdraw_ok (st : ServerState) (uname : String) (u : User) (b w : ℚ)
    (amount : JsVal) (cmdId : String)
    (hfind : findUser st.users uname = some u) (hb : u.balance = JNum.fin b)
    (hw : parseFloat amount = JNum.fin w) (h0 : 0 < w) (hwb : w ≤ b) :
    (withdraw st uname amount cmdId false).1.status = 200 ∧
    userBalance (withdraw st uname amount cmdId false).2 uname =
      some (JNum.fin (b - w)) ∧
    (withdraw st uname amount cmdId false).2.commands = st.commands ++
      [{ id := cmdId,
         command := "/pay " ++ uname ++ " " ++ jsNumToString (JNum.fin w),
         status := "pending" }] := by
  have hjle : (JNum.fin w).jle (JNum.fin 0) = false := by
    simp only [JNum.jle_fin_fin, decide_eq_false_iff_not, not_le]
    exact h0
  have hjgt : (JNum.fin w).jgt (JNum.fin b) = false := by
    simp only [JNum.jgt_fin_fin, decide_eq_false_iff_not, not_lt]
    exact hwb
  refine ⟨?_, ?_, ?_⟩
  · simp only [withdraw, hfind, hw, hb, hjle, hjgt, Bool.or_self,
      Bool.false_eq_true, if_false]
  · simp only [userBalance, withdraw, hfind, hw, hb, hjle, hjgt, Bool.or_self,
      Bool.false_eq_true, if_false]
    rw [findUser_updateUser st.users uname (balanceSub (JNum.fin w))
      (fun v => rfl), hfind]
    simp only [Option.map_some, Option.map_some', balanceSub_balance, hb,
      JNum.sub_fin_fin]
  · simp only [withdraw, hfind, hw, hb, hjle, hjgt, Bool.or_self,
      Bool.false_eq_true, if_false]

theorem withdraw_throw (st : ServerState) (uname : String) (u : User) (b w : ℚ)
    (amount : JsVal) (cmdId : String)
    (hfind : findUser st.users uname = some u) (hb : u.balance = JNum.fin b)
    (hw : parseFloat amount = JNum.fin w) (h0 : 0 < w) (hwb : w ≤ b) :
    (withdraw st uname amount cmdId true).1.status = 500 ∧
    (withdraw st uname amount cmdId true).2.users = st.users ∧
    (withdraw st uname amount cmdId true).2.commands = st.commands := by
  have hjle : (JNum.fin w).jle (JNum.fin 0) = false := by
    simp only [JNum.jle_fin_fin, decide_eq_false_iff_not, not_le]
    exact h0
  have hjgt : (JNum.fin w).jgt (JNum.fin b) = false := by
    simp only [JNum.jgt_fin_fin, decide_eq_false_iff_not, not_lt]
    exact hwb
  have hcancel : updateUser (updateUser st.users uname (balanceSub (JNum.fin w)))
      uname (balanceAdd (JNum.fin w)) = st.users := by
    unfold updateUser
    have hq : ∀ a : User, (jsLower a.username == jsLower uname) = true →
        (jsLower (balanceSub (JNum.fin w) a).username == jsLower uname) = true := by
      intro a ha
      simpa only [balanceSub_username] using ha
    rw [updateFirst_updateFirst _ (balanceSub (JNum.fin w))
      (balanceAdd (JNum.fin w)) st.users hq]
    rw [updateFirst_congr _ _ (fun a => a) _
      (fun a => balanceAdd_balanceSub w a)]
    exact updateFirst_id _ _
  refine ⟨?_, ?_, ?_⟩ <;>
    simp only [withdraw, hfind, hw, hb, hjle, hjgt, Bool.or_self,
      Bool.false_eq_true, if_false, eq_self_iff_true, if_true, hcancel]

theorem reportPayment_ok (st : ServerState) (token envToken : Option String)
    (from_ : String) (amount : JsVal) (pid uid : String)
    (htok : tokenOk token envToken = true) (hfrom : from_ ≠ "")
    (hamt : truthy amount = true) :
    (reportPayment st token envToken from_ amount pid uid).1.status = 200 ∧
    (reportPayment st token envToken from_ amount pid uid).2.payments =
      st.payments ++
        [{ id := pid, from_ := from_, amount := parseFloat amount,
           status := "pending" }] ∧
    (∀ u, findUser st.users from_ = some u →
      findUser (reportPayment st token envToken from_ amount pid uid).2.users
        from_ = some (balanceAdd (parseFloat amount) u)) ∧
    (findUser st.users from_ = none →
      (reportPayment st token envToken from_ amount pid uid).2.users =
        st.users ++
          [balanceAdd (parseFloat amount)
            { id := uid, username := jsTrim from_, balance := JNum.fin 0,
              totalWagered := JNum.fin 0, totalWon := JNum.fin 0,
              totalLost := JNum.fin 0 }]) := by
  have hfrom2 : (from_ == "") = false := by
    simp only [beq_eq_false_iff_ne, ne_eq]
    exact hfrom
  cases hfu : findUser st.users from_ with
  | none =>
    refine ⟨?_, ?_, ?_, ?_⟩
    · simp only [reportPayment, htok, not_true, if_false, hfrom2, hamt,
        not_true, decide_False, Bool.or_self, Bool.false_eq_true, hfu]
    · simp only [reportPayment, htok, not_true, if_false, hfrom2, hamt,
        not_true, decide_False, Bool.or_self, Bool.false_eq_true, hfu]
    · intro u hu
      cases hu
    · intro _
      simp only [reportPayment, htok, not_true, if_false, hfrom2, hamt,
        not_true, decide_False, Bool.or_self, Bool.false_eq_true, hfu]
  | some u0 =>
    refine ⟨?_, ?_, ?_, ?_⟩
    · simp only [reportPayment, htok, not_true, if_false, hfrom2, hamt,
        not_true, decide_False, Bool.or_self, Bool.false_eq_true, hfu]
    · simp only [reportPayment, htok, not_true, if_false, hfrom2, hamt,
        not_true, decide_False, Bool.or_self, Bool.false_eq_true, hfu]
    · intro u hu
      cases hu
      simp only [reportPayment, htok, not_true, if_false, hfrom2, hamt,
        not_true, decide_False, Bool.or_self, Bool.false_eq_true, hfu]
      rw [findUser_updateUser st.users from_ (balanceAdd (parseFloat amount))
        (fun v => rfl), hfu]
      rfl
    · intro hnone
      cases hnone

theorem pay_found (st : ServerState) (pid cid : String) (p : Payment)
    (hfind : st.payments.find? (fun q2 => q2.id == pid) = some p) :
    (pay st pid cid false).1.status = 200 ∧
    (pay st pid cid false).2.payments.find? (fun q2 => q2.id == pid) =
      some (payUpdate (p.amount.mul (JNum.fin 2)) p) ∧
    (pay st pid cid false).2.commands = st.commands ++
      [{ id := cid,
         command := "/pay " ++ p.from_ ++ " " ++
           jsNumToString (p.amount.mul (JNum.fin 2)),
         status := "pending" }] := by
  refine ⟨?_, ?_, ?_⟩
  · simp only [pay, hfind, Bool.false_eq_true, if_false]
  · simp only [pay, hfind, Bool.false_eq_true, if_false]
    rw [find_updateFirst (fun q2 => q2.id == pid)
      (payUpdate (p.amount.mul (JNum.fin 2))) st.payments (fun a ha => ha),
      hfind]
    rfl
  · simp only [pay, hfind, Bool.false_eq_true, if_false]

theorem pay_notfound (st : ServerState) (pid cid : String) (e : Bool)
    (hfind : st.payments.find? (fun q2 => q2.id == pid) = none) :
    (pay st pid cid e).1.status = 404 ∧ (pay st pid cid e).2 = st := by
  constructor <;> simp only [pay, hfind]

theorem pay_mem (st : ServerState) (pid cid : String) (e : Bool) (p2 : Payment)
    (hmem : p2 ∈ (pay st pid cid e).2.payments) :
    p2.status = "paid" ∨ p2 ∈ st.payments := by
  cases hfind : st.payments.find? (fun q2 => q2.id == pid) with
  | none =>
    right
    simpa only [pay, hfind] using hmem
  | some p =>
    have hmem2 : p2 ∈ updateFirst (fun q2 => q2.id == pid)
        (payUpdate (p.amount.mul (JNum.fin 2))) st.payments := by
      cases e with
      | true => simpa only [pay, hfind, if_true] using hmem
      | false => simpa only [pay, hfind, Bool.false_eq_true, if_false] using hmem
    rcases mem_updateFirst _ _ _ _ hmem2 with h1 | ⟨b2, _, hb2⟩
    · exact Or.inr h1
    · exact Or.inl (by rw [hb2]; rfl)

theorem lose_found (st : ServerState) (pid : String) (p : Payment)
    (hfind : st.payments.find? (fun q2 => q2.id == pid) = some p) :
    (lose st pid).1.status = 200 ∧
    (lose st pid).2.payments =
      removeFirst (fun q2 => q2.id == pid) st.payments ∧
    (lose st pid).2.commands = st.commands ∧
    (lose st pid).2.users = st.users := by
  refine ⟨?_, ?_, ?_, ?_⟩ <;> simp only [lose, hfind]

theorem lose_notfound (st : ServerState) (pid : String)
    (hfind : st.payments.find? (fun q2 => q2.id == pid) = none) :
    (lose st pid).1.status = 404 ∧ (lose st pid).2 = st := by
  constructor <;> simp only [lose, hfind]

theorem lose_mem (st : ServerState) (pid : String) (p2 : Payment)
    (hmem : p2 ∈ (lose st pid).2.payments) : p2 ∈ st.payments := by
  cases hfind : st.payments.find? (fun q2 => q2.id == pid) with
  | none => simpa only [lose, hfind] using hmem
  | some p =>
    exact mem_removeFirst _ _ _ (by simpa only [lose, hfind] using hmem)

/-- Deleting a key from the pending-links object makes later lookups of that
key fail. -/
theorem find_filter_removed (l : List (String × LinkData)) (code : String) :
    (l.filter (fun kv2 => !(kv2.1 == code))).find? (fun kv2 => kv2.1 == code) =
      none := by
  rw [List.find?_eq_none]
  intro x hx
  have h2 := (List.mem_filter.mp hx).2
  simp only [Bool.not_eq_true'] at h2
  simp [h2]

theorem link_ok (st : ServerState) (username linkingCode : String) (now : ℤ)
    (uid : String) (kv : String × LinkData)
    (hu : (username == "") = false) (hc : (linkingCode == "") = false)
    (hl : st.pendingLinks.find? (fun kv2 => kv2.1 == linkingCode) = some kv)
    (hexp : ¬ 24 * 60 * 60 * 1000 < now - kv.2.timestamp) :
    (linkAccount st username linkingCode now uid).1.status = 200 ∧
    (linkAccount st username linkingCode now uid).2.pendingLinks.find?
      (fun kv2 => kv2.1 == linkingCode) = none := by
  constructor
  · simp only [linkAccount, hu, hc, Bool.or_self, Bool.false_eq_true, if_false,
      hl]
    rw [if_neg hexp]
  · simp only [linkAccount, hu, hc, Bool.or_self, Bool.false_eq_true, if_false,
      hl]
    rw [if_neg hexp]
    exact find_filter_removed st.pendingLinks linkingCode

theorem link_expired (st : ServerState) (username linkingCode : String)
    (now : ℤ) (uid : String) (kv : String × LinkData)
    (hu : (username == "") = false) (hc : (linkingCode == "") = false)
    (hl : st.pendingLinks.find? (fun kv2 => kv2.1 == linkingCode) = some kv)
    (hexp : 24 * 60 * 60 * 1000 < now - kv.2.timestamp) :
    (linkAccount st username linkingCode now uid).1.status = 400 ∧
    (linkAccount st username linkingCode now uid).1.error =
      some "Linking code expired" ∧
    (linkAccount st username linkingCode now uid).2.pendingLinks.find?
      (fun kv2 => kv2.1 == linkingCode) = none ∧
    (linkAccount st username linkingCode now uid).2.users = st.users := by
  refine ⟨?_, ?_, ?_, ?_⟩ <;>
    (simp only [linkAccount, hu, hc, Bool.or_self, Bool.false_eq_true, if_false,
      hl]
     rw [if_pos hexp])
  exact find_filter_removed st.pendingLinks linkingCode

theorem link_invalid (st : ServerState) (username linkingCode : String)
    (now : ℤ) (uid : String)
    (hu : (username == "") = false) (hc : (linkingCode == "") = false)
    (hl : st.pendingLinks.find? (fun kv2 => kv2.1 == linkingCode) = none) :
    (linkAccount st username linkingCode now uid).1.status = 400 ∧
    (linkAccount st username linkingCode now uid).1.error =
      some "Invalid or expired linking code" ∧
    (linkAccount st username linkingCode now uid).2 = st := by
  refine ⟨?_, ?_, ?_⟩ <;>
    simp only [linkAccount, hu, hc, Bool.or_self, Bool.false_eq_true, if_false,
      hl]

/-- A concrete one-user state for witnesses: Eve with balance 100. -/
def eveUser : User :=
  { id := "u1", username := "Eve", balance := JNum.fin 100,
    totalWagered := JNum.fin 0, totalWon := JNum.fin 0, totalLost := JNum.fin 0 }

/-- The server state holding only `eveUser`. -/
def eveState : ServerState :=
  { users := [eveUser], payments := [], commands := [], pendingLinks := [] }

/-- C1: for every game endpoint call (blackjack, plinko, number) on an
existing user whose balance is the finite number `b` and whose wager field
parses to the finite number `w`: if `0 < w ≤ b` the call succeeds and the new
balance equals `b - w + payout` (blackjack pays `2w` on a reported win, else
`0`; plinko pays the client-reported `winAmount`; number pays `10w` exactly on
a match); if `w ≤ 0` or `w > b` the call answers 400 and the whole state —
every field of every account included — is unchanged.  For the number game the
success case additionally assumes the picked number passes its own range
guard, which the handler checks after the wager guard. -/
theorem C1_game_wager_accounting (st : ServerState) (uname : String) (u : User)
    (b w : ℚ) (hfind : findUser st.users uname = some u)
    (hb : u.balance = JNum.fin b) :
    (∀ wager won dealerValue playerValue, parseFloat wager = JNum.fin w →
      (0 < w → w ≤ b →
        (blackjack st uname wager won dealerValue playerValue).1.status = 200 ∧
        userBalance (blackjack st uname wager won dealerValue playerValue).2
          uname = some (JNum.fin (b - w + (if truthy won then 2 * w else 0)))) ∧
      (w ≤ 0 ∨ b < w →
        (blackjack st uname wager won dealerValue playerValue).1.status = 400 ∧
        (blackjack st uname wager won dealerValue playerValue).2 = st)) ∧
    (∀ wager winAmount multiplier, parseFloat wager = JNum.fin w →
      (0 < w → w ≤ b →
        (plinko st uname wager winAmount multiplier).1.status = 200 ∧
        userBalance (plinko st uname wager winAmount multiplier).2 uname =
          some (((JNum.fin b).sub (JNum.fin w)).add (parseFloat winAmount))) ∧
      (w ≤ 0 ∨ b < w →
        (plinko st uname wager winAmount multiplier).1.status = 400 ∧
        (plinko st uname wager winAmount multiplier).2 = st)) ∧
    (∀ wager number rand, parseFloat wager = JNum.fin w →
      (0 < w → w ≤ b →
        ((parseInt number).jlt (JNum.fin 1) ||
          (parseInt number).jgt (JNum.fin 10)) = false →
        (numberGame st uname wager number rand).1.status = 200 ∧
        userBalance (numberGame st uname wager number rand).2 uname =
          some (JNum.fin (b - w +
            (if (JNum.fin ((drawnOf rand : ℤ) : ℚ)).jeq (parseInt number)
             then 10 * w else 0)))) ∧
      (w ≤ 0 ∨ b < w →
        (numberGame st uname wager number rand).1.status = 400 ∧
        (numberGame st uname wager number rand).2 = st)) := by
  refine ⟨?_, ?_, ?_⟩
  · intro wager won dealerValue playerValue hw
    constructor
    · intro h0 hwb
      obtain ⟨h1, _, h3⟩ :=
        blackjack_ok st uname u b w wager won dealerValue playerValue
          hfind hb hw h0 hwb
      exact ⟨h1, h3⟩
    · intro hrej
      exact blackjack_reject st uname u b w wager won dealerValue playerValue
        hfind hb hw hrej
  · intro wager winAmount multiplier hw
    constructor
    · intro h0 hwb
      obtain ⟨h1, _, h3⟩ :=
        plinko_ok st uname u b w wager winAmount multiplier hfind hb hw h0 hwb
      exact ⟨h1, h3⟩
    · intro hrej
      exact plinko_reject st uname u b w wager winAmount multiplier
        hfind hb hw hrej
  · intro wager number rand hw
    constructor
    · intro h0 hwb hpick
      obtain ⟨h1, _, _, h4⟩ :=
        numberGame_ok st uname u b w wager number rand hfind hb hw h0 hwb hpick
      exact ⟨h1, h4⟩
    · intro hrej
      exact numberGame_reject st uname u b w wager number rand hfind hb hw hrej

/-- Witness for C1: Eve (balance 100) wins blackjack with wager 40 and ends at
160; a wager of 200 on plinko is rejected with 400 and the state is
unchanged. -/
theorem C1_witness :
    (blackjack eveState "Eve" (JsVal.num (JNum.fin 40)) (JsVal.bool true)
      JsVal.undef JsVal.undef).1.status = 200 ∧
    userBalance (blackjack eveState "Eve" (JsVal.num (JNum.fin 40))
      (JsVal.bool true) JsVal.undef JsVal.undef).2 "Eve" =
      some (JNum.fin 140) ∧
    (plinko eveState "Eve" (JsVal.num (JNum.fin 200)) (JsVal.num (JNum.fin 0))
      JsVal.undef).1.status = 400 ∧
    (plinko eveState "Eve" (JsVal.num (JNum.fin 200)) (JsVal.num (JNum.fin 0))
      JsVal.undef).2 = eveState := by
  have h40 := C1_game_wager_accounting eveState "Eve" eveUser 100 40 rfl rfl
  have h200 := C1_game_wager_accounting eveState "Eve" eveUser 100 200 rfl rfl
  obtain ⟨hbj1, hbj2⟩ :=
    (h40.1 (JsVal.num (JNum.fin 40)) (JsVal.bool true) JsVal.undef
      JsVal.undef rfl).1 (by norm_num) (by norm_num)
  obtain ⟨hpl1, hpl2⟩ :=
    (h200.2.1 (JsVal.num (JNum.fin 200)) (JsVal.num (JNum.fin 0))
      JsVal.undef rfl).2 (Or.inr (by norm_num))
  refine ⟨hbj1, ?_, hpl1, hpl2⟩
  rw [hbj2]
  norm_num [truthy]

/-- A state with no users and no payments, for ingestion witnesses. -/
def emptyState : ServerState :=
  { users := [], payments := [], commands := [], pendingLinks := [] }

/-- C2: every payment-ingestion call with a valid bearer token, a non-empty
`from` and a truthy `amount` succeeds, appends exactly one new
`PendingPayment` with status `pending` for `parseFloat(amount)`, and credits
the payer: an existing account's balance becomes `balance + parseFloat(amount)`
and an absent payer is first created with balance 0 (then credited), so either
way `balance_after = balance_before + amount`. -/
theorem C2_ingestion_credit (st : ServerState) (token envToken : Option String)
    (from_ : String) (amount : JsVal) (pid uid : String)
    (htok : tokenOk token envToken = true) (hfrom : from_ ≠ "")
    (hamt : truthy amount = true) :
    (reportPayment st token envToken from_ amount pid uid).1.status = 200 ∧
    (reportPayment st token envToken from_ amount pid uid).2.payments =
      st.payments ++
        [{ id := pid, from_ := from_, amount := parseFloat amount,
           status := "pending" }] ∧
    (∀ u, findUser st.users from_ = some u →
      findUser (reportPayment st token envToken from_ amount pid uid).2.users
        from_ = some (balanceAdd (parseFloat amount) u)) ∧
    (findUser st.users from_ = none →
      (reportPayment st token envToken from_ amount pid uid).2.users =
        st.users ++
          [balanceAdd (parseFloat amount)
            { id := uid, username := jsTrim from_, balance := JNum.fin 0,
              totalWagered := JNum.fin 0, totalWon := JNum.fin 0,
              totalLost := JNum.fin 0 }]) :=
  reportPayment_ok st token envToken from_ amount pid uid htok hfrom hamt

/-- Witness for C2: ingesting `{from: "Alice", amount: 100}` with a valid
token into the empty state answers 200, appends one pending payment of 100,
and creates Alice with balance `0 + 100 = 100`. -/
theorem C2_witness :
    (reportPayment emptyState (some "tkn") (some "tkn") "Alice"
      (JsVal.num (JNum.fin 100)) "p1" "u1").1.status = 200 ∧
    (reportPayment emptyState (some "tkn") (some "tkn") "Alice"
      (JsVal.num (JNum.fin 100)) "p1" "u1").2.payments =
      [{ id := "p1", from_ := "Alice", amount := JNum.fin 100,
         status := "pending" }] ∧
    userBalance (reportPayment emptyState (some "tkn") (some "tkn") "Alice"
      (JsVal.num (JNum.fin 100)) "p1" "u1").2 "Alice" =
      some (JNum.fin 100) := by
  obtain ⟨h1, h2, _, h4⟩ :=
    C2_ingestion_credit emptyState (some "tkn") (some "tkn") "Alice"
      (JsVal.num (JNum.fin 100)) "p1" "u1" rfl (by decide) (by decide)
  refine ⟨h1, h2, ?_⟩
  rw [userBalance, h4 rfl]
  show some ((JNum.fin 0).add (JNum.fin 100)) = some (JNum.fin 100)
  norm_num

/-- A state holding one pending payment of 100 from Alice. -/
def alicePayment : Payment :=
  { id := "p1", from_ := "Alice", amount := JNum.fin 100, status := "pending" }

/-- The server state holding only `alicePayment`. -/
def payState : ServerState :=
  { users := [], payments := [alicePayment], commands := [], pendingLinks := [] }

/-- C3: resolving a known payment id via `/api/pay` marks that payment
`paid` with `paidAmount = 2 * amount` and appends exactly one `QueuedCommand`
`"/pay <payer> <2*amount>"` with status `pending`; an unknown id answers 404
and leaves both the payments collection and the command queue (indeed the
whole state) unchanged. -/
theorem C3_pay_resolution (st : ServerState) (pid cid : String) :
    (∀ p, st.payments.find? (fun q2 => q2.id == pid) = some p →
      (pay st pid cid false).1.status = 200 ∧
      (pay st pid cid false).2.payments.find? (fun q2 => q2.id == pid) =
        some { p with status := "paid",
                      paidAmount := some (p.amount.mul (JNum.fin 2)) } ∧
      (pay st pid cid false).2.commands = st.commands ++
        [{ id := cid,
           command := "/pay " ++ p.from_ ++ " " ++
             jsNumToString (p.amount.mul (JNum.fin 2)),
           status := "pending" }]) ∧
    (∀ e, st.payments.find? (fun q2 => q2.id == pid) = none →
      (pay st pid cid e).1.status = 404 ∧ (pay st pid cid e).2 = st) := by
  constructor
  · intro p hp
    exact pay_found st pid cid p hp
  · intro e he
    exact pay_notfound st pid cid e he

/-- Witness for C3: paying Alice's pending payment of 100 queues exactly
`"/pay Alice 200"` and marks the payment paid with `paidAmount = 200`; an
unknown id answers 404 and changes nothing. -/
theorem C3_witness :
    (pay payState "p1" "c1" false).1.status = 200 ∧
    (pay payState "p1" "c1" false).2.payments.find?
      (fun q2 => q2.id == "p1") =
      some { id := "p1", from_ := "Alice", amount := JNum.fin 100,
             status := "paid", paidAmount := some (JNum.fin 200) } ∧
    (pay payState "p1" "c1" false).2.commands =
      [{ id := "c1", command := "/pay Alice 200", status := "pending" }] ∧
    (pay payState "nope" "c1" false).1.status = 404 ∧
    (pay payState "nope" "c1" false).2 = payState := by
  have h := C3_pay_resolution payState "p1" "c1"
  have h2 := C3_pay_resolution payState "nope" "c1"
  obtain ⟨g1, g2, g3⟩ := h.1 alicePayment rfl
  obtain ⟨g4, g5⟩ := h2.2 false rfl
  have hm : alicePayment.amount.mul (JNum.fin 2) = JNum.fin 200 := by
    show (JNum.fin 100).mul (JNum.fin 2) = JNum.fin 200
    simp only [JNum.mul_fin_fin, JNum.fin.injEq]
    norm_num
  refine ⟨g1, ?_, ?_, g4, g5⟩
  · rw [g2, hm]
    rfl
  · rw [g3, hm]
    rfl

/-- Debiting and then refunding the same finite amount on the same username
restores the user list exactly. -/
theorem updateUser_refund (users : List User) (uname : String) (w : ℚ) :
    updateUser (updateUser users uname (balanceSub (JNum.fin w))) uname
      (balanceAdd (JNum.fin w)) = users := by
  unfold updateUser
  have hq : ∀ a : User,
      ((fun v => jsLower v.username == jsLower uname) a) = true →
      ((fun v => jsLower v.username == jsLower uname)
        (balanceSub (JNum.fin w) a)) = true := by
    intro a ha
    simpa only [balanceSub_username] using ha
  rw [updateFirst_updateFirst _ (balanceSub (JNum.fin w))
    (balanceAdd (JNum.fin w)) users hq]
  rw [updateFirst_congr _ _ (fun a => a) _ (fun a => balanceAdd_balanceSub w a)]
  exact updateFirst_id _ _

/-- C4 counterexample: the claim "on any failed withdrawal the user's balance
is unchanged" fails when the amount does not parse as a number.  Eve has
balance 100; a withdrawal whose `amount` field is missing gives
`withdrawAmount = NaN`, which passes the validation, and when enqueueing then
fails the refund `balance += NaN` cannot undo the `balance -= NaN` debit: the
call reports failure (500) with Eve's balance now NaN, not 100. -/
theorem C4_counterexample :
    userBalance eveState "Eve" = some (JNum.fin 100) ∧
    (withdraw eveState "Eve" JsVal.undef "c1" true).1.status = 500 ∧
    userBalance (withdraw eveState "Eve" JsVal.undef "c1" true).2 "Eve" =
      some JNum.nan ∧
    some JNum.nan ≠ some (JNum.fin 100) := by
  refine ⟨rfl, rfl, rfl, by decide⟩

/-- C4 as amended: restricted to amounts that parse to a finite number `w`,
every failed withdrawal (404 unknown user, 400 invalid amount, or 500 after
the enqueue step throws — the case where the handler applies the compensating
`balance += w` credit before reporting failure) leaves the user list and the
command queue exactly as they were before the call. -/
theorem C4_failed_withdraw_refund (st : ServerState) (uname : String)
    (amount : JsVal) (cmdId : String) (e : Bool) (w : ℚ)
    (hw : parseFloat amount = JNum.fin w)
    (hstatus : (withdraw st uname amount cmdId e).1.status ≠ 200) :
    (withdraw st uname amount cmdId e).2.users = st.users ∧
    (withdraw st uname amount cmdId e).2.commands = st.commands := by
  cases hfind : findUser st.users uname with
  | none =>
    obtain ⟨_, h2⟩ := withdraw_notfound st uname amount cmdId e hfind
    rw [h2]
    exact ⟨rfl, rfl⟩
  | some u =>
    cases hguard : ((JNum.fin w).jle (JNum.fin 0) ||
        (JNum.fin w).jgt u.balance) with
    | true =>
      have hst : (withdraw st uname amount cmdId e).2 = st := by
        simp only [withdraw, hfind, hw, hguard, eq_self_iff_true, if_true]
      rw [hst]
      exact ⟨rfl, rfl⟩
    | false =>
      cases e with
      | false =>
        have h200 : (withdraw st uname amount cmdId false).1.status = 200 := by
          simp only [withdraw, hfind, hw, hguard, Bool.false_eq_true, if_false]
        exact absurd h200 hstatus
      | true =>
        constructor
        · simp only [withdraw, hfind, hw, hguard, Bool.false_eq_true, if_false,
            eq_self_iff_true, if_true]
          exact updateUser_refund st.users uname w
        · simp only [withdraw, hfind, hw, hguard, Bool.false_eq_true, if_false,
            eq_self_iff_true, if_true]

/-- Witness for the amended C4: Eve withdraws 40, the enqueue step throws, the
refund runs, and users and queue are exactly as before. -/
theorem C4_witness :
    (withdraw eveState "Eve" (JsVal.num (JNum.fin 40)) "c1" true).1.status ≠ 200 ∧
    (withdraw eveState "Eve" (JsVal.num (JNum.fin 40)) "c1" true).2.users =
      eveState.users ∧
    (withdraw eveState "Eve" (JsVal.num (JNum.fin 40)) "c1" true).2.commands =
      eveState.commands := by
  have hne : (withdraw eveState "Eve" (JsVal.num (JNum.fin 40)) "c1" true).1.status
      ≠ 200 := by
    have h500 : (withdraw eveState "Eve" (JsVal.num (JNum.fin 40)) "c1"
        true).1.status = 500 :=
      (withdraw_throw eveState "Eve" eveUser 100 40 (JsVal.num (JNum.fin 40))
        "c1" rfl rfl rfl (by norm_num) (by norm_num)).1
    rw [h500]
    decide
  obtain ⟨h1, h2⟩ := C4_failed_withdraw_refund eveState "Eve"
    (JsVal.num (JNum.fin 40)) "c1" true 40 rfl hne
  exact ⟨hne, h1, h2⟩

/-- C5: a withdrawal request whose finite parsed amount `w` exceeds the user's
finite balance `b` is rejected with 400 and the state — balances and command
queue included — is exactly unchanged. -/
theorem C5_overdraw_rejected (st : ServerState) (uname : String) (u : User)
    (b w : ℚ) (amount : JsVal) (cmdId : String) (e : Bool)
    (hfind : findUser st.users uname = some u) (hb : u.balance = JNum.fin b)
    (hw : parseFloat amount = JNum.fin w) (hover : b < w) :
    (withdraw st uname amount cmdId e).1.status = 400 ∧
    (withdraw st uname amount cmdId e).2 = st :=
  withdraw_reject st uname u b w amount cmdId e hfind hb hw (Or.inr hover)

/-- Witness for C5: Eve (balance 100) asking to withdraw 200 gets 400 and the
state is untouched. -/
theorem C5_witness :
    (withdraw eveState "Eve" (JsVal.num (JNum.fin 200)) "c1" false).1.status = 400 ∧
    (withdraw eveState "Eve" (JsVal.num (JNum.fin 200)) "c1" false).2 = eveState :=
  C5_overdraw_rejected eveState "Eve" eveUser 100 200
    (JsVal.num (JNum.fin 200)) "c1" false rfl rfl rfl (by norm_num)

/-- C6 counterexample: resolution is not terminal for `pay`.  Starting from
one pending payment, the first `pay` marks it paid and queues one payout
command; a second `pay` with the same payment id is accepted (200) and queues
a second payout command — an additional payout effect after the record was
already resolved. -/
theorem C6_counterexample :
    (pay payState "p1" "c1" false).2.commands.length = 1 ∧
    ((pay payState "p1" "c1" false).2.payments.find?
      (fun q2 => q2.id == "p1")).map Payment.status = some "paid" ∧
    (pay (pay payState "p1" "c1" false).2 "p1" "c2" false).1.status = 200 ∧
    (pay (pay payState "p1" "c1" false).2 "p1" "c2" false).2.commands.length =
      2 := by
  exact ⟨rfl, rfl, rfl, rfl⟩

/-- C6 as amended: denial is terminal — after `lose` removes a payment (whose
id is unique in the collection), a further resolve of that id answers 404 and
changes nothing; and no operation ever moves a record from `paid` back to
`pending`: every payment surviving a `pay` call either was already in the
collection or carries status `paid`, and `lose` only removes records.  A
second `pay` on an already-`paid` record is, however, accepted and enqueues
another command (see the counterexample). -/
theorem C6_resolution_terminality (st : ServerState) (pid cid : String)
    (e : Bool) :
    (∀ p, st.payments.countP (fun q2 => q2.id == pid) ≤ 1 →
      st.payments.find? (fun q2 => q2.id == pid) = some p →
      (pay (lose st pid).2 pid cid e).1.status = 404 ∧
      (pay (lose st pid).2 pid cid e).2 = (lose st pid).2) ∧
    (∀ p2, p2 ∈ (pay st pid cid e).2.payments →
      p2.status = "paid" ∨ p2 ∈ st.payments) ∧
    (∀ p2, p2 ∈ (lose st pid).2.payments → p2 ∈ st.payments) := by
  refine ⟨?_, ?_, ?_⟩
  · intro p hcount hfind
    obtain ⟨_, hpay2, _, _⟩ := lose_found st pid p hfind
    have hnone : (lose st pid).2.payments.find? (fun q2 => q2.id == pid) =
        none := by
      rw [hpay2]
      exact find_removeFirst_of_unique _ _ hcount p hfind
    exact pay_notfound (lose st pid).2 pid cid e hnone
  · intro p2 hmem
    exact pay_mem st pid cid e p2 hmem
  · intro p2 hmem
    exact lose_mem st pid p2 hmem

/-- Witness for the amended C6: deny Alice's payment, then try to pay the same
id — the resolve answers 404 and the post-deny state is unchanged. -/
theorem C6_witness :
    (pay (lose payState "p1").2 "p1" "c1" false).1.status = 404 ∧
    (pay (lose payState "p1").2 "p1" "c1" false).2 = (lose payState "p1").2 :=
  (C6_resolution_terminality payState "p1" "c1" false).1 alicePayment
    (by decide) rfl

/-- Alice with balance 100, and the state holding only her account. -/
def aliceUser : User :=
  { id := "u2", username := "Alice", balance := JNum.fin 100,
    totalWagered := JNum.fin 0, totalWon := JNum.fin 0, totalLost := JNum.fin 0 }

/-- The server state holding only `aliceUser`. -/
def aliceState : ServerState :=
  { users := [aliceUser], payments := [], commands := [], pendingLinks := [] }

/-- C7 counterexample: ingestion does not require a positive amount.  With a
valid token, reporting `{from: "Alice", amount: -5}` is accepted (200), a
PendingPayment for −5 is appended, and Alice's balance drops from 100 to 95 —
the claim says such a call must fail with no mutation. -/
theorem C7_counterexample :
    (reportPayment aliceState (some "tkn") (some "tkn") "Alice"
      (JsVal.num (JNum.fin (-5))) "p9" "u9").1.status = 200 ∧
    (reportPayment aliceState (some "tkn") (some "tkn") "Alice"
      (JsVal.num (JNum.fin (-5))) "p9" "u9").2.payments =
      [{ id := "p9", from_ := "Alice", amount := JNum.fin (-5),
         status := "pending" }] ∧
    userBalance (reportPayment aliceState (some "tkn") (some "tkn") "Alice"
      (JsVal.num (JNum.fin (-5))) "p9" "u9").2 "Alice" =
      some (JNum.fin 95) := by
  obtain ⟨h1, h2, h3, _⟩ :=
    reportPayment_ok aliceState (some "tkn") (some "tkn") "Alice"
      (JsVal.num (JNum.fin (-5))) "p9" "u9" rfl (by decide)
      (by norm_num [truthy])
  refine ⟨h1, by rw [h2]; rfl, ?_⟩
  rw [userBalance, h3 aliceUser rfl]
  show some ((JNum.fin 100).add (JNum.fin (-5))) = some (JNum.fin 95)
  norm_num

/-- C7 as amended: the ingestion guard only rejects a falsy `amount` (absent,
zero, NaN or empty): such calls answer 400 with the whole state unchanged;
any other numeric amount — negative amounts included — passes validation and
is accepted with 200. -/
theorem C7_falsy_amount_only (st : ServerState) (token envToken : Option String)
    (from_ : String) (amount : JsVal) (pid uid : String) :
    (tokenOk token envToken = true → truthy amount = false →
      (reportPayment st token envToken from_ amount pid uid).1.status = 400 ∧
      (reportPayment st token envToken from_ amount pid uid).2 = st) ∧
    (∀ q : ℚ, tokenOk token envToken = true → from_ ≠ "" → q ≠ 0 →
      (reportPayment st token envToken from_ (JsVal.num (JNum.fin q)) pid
        uid).1.status = 200) := by
  constructor
  · intro htok hamt
    constructor <;>
      simp only [reportPayment, htok, not_true, if_false, hamt,
        Bool.false_eq_true, not_false_iff, decide_True, Bool.or_true,
        eq_self_iff_true, if_true]
  · intro q htok hfrom hq
    have hamt : truthy (JsVal.num (JNum.fin q)) = true := by
      simp only [truthy, decide_eq_true_eq]
      exact hq
    exact (reportPayment_ok st token envToken from_ (JsVal.num (JNum.fin q))
      pid uid htok hfrom hamt).1

/-- Witness for the amended C7: with a valid token, amount 0 (falsy) is
rejected with no mutation, while amount −5 is accepted. -/
theorem C7_witness :
    (reportPayment aliceState (some "tkn") (some "tkn") "Alice"
      (JsVal.num (JNum.fin 0)) "p9" "u9").1.status = 400 ∧
    (reportPayment aliceState (some "tkn") (some "tkn") "Alice"
      (JsVal.num (JNum.fin 0)) "p9" "u9").2 = aliceState ∧
    (reportPayment aliceState (some "tkn") (some "tkn") "Alice"
      (JsVal.num (JNum.fin (-5))) "p9" "u9").1.status = 200 := by
  obtain ⟨h1, h2⟩ :=
    (C7_falsy_amount_only aliceState (some "tkn") (some "tkn") "Alice"
      (JsVal.num (JNum.fin 0)) "p9" "u9").1 rfl (by decide)
  refine ⟨h1, h2, ?_⟩
  exact (C7_falsy_amount_only aliceState (some "tkn") (some "tkn") "Alice"
    (JsVal.num (JNum.fin 0)) "p9" "u9").2 (-5) rfl (by decide) (by norm_num)

/-- Bob with balance 50, and the state holding only his account. -/
def bobUser : User :=
  { id := "u3", username := "Bob", balance := JNum.fin 50,
    totalWagered := JNum.fin 0, totalWon := JNum.fin 0, totalLost := JNum.fin 0 }

/-- The server state holding only `bobUser`. -/
def bobState : ServerState :=
  { users := [bobUser], payments := [], commands := [], pendingLinks := [] }

/-- C8: in the number-draw game the drawn number `floor(rand*10)+1` always
lies in `[1,10]` for `rand ∈ [0,1)`; on every accepted play the reported
winnings are `10*w` exactly when the picked number equals the drawn number and
`0` otherwise; and in the concrete scenario — Bob with balance 50 wagers 40 on
number 7 — a draw forced to 7 leaves him at `50 - 40 + 400 = 410` while any
other draw leaves him at 10. -/
theorem C8_number_draw :
    (∀ rand : ℚ, 0 ≤ rand → rand < 1 →
      1 ≤ drawnOf rand ∧ drawnOf rand ≤ 10) ∧
    (∀ (st : ServerState) (uname : String) (u : User) (b w : ℚ)
      (wager number : JsVal) (rand : ℚ),
      findUser st.users uname = some u → u.balance = JNum.fin b →
      parseFloat wager = JNum.fin w → 0 < w → w ≤ b →
      ((parseInt number).jlt (JNum.fin 1) ||
        (parseInt number).jgt (JNum.fin 10)) = false →
      (numberGame st uname wager number rand).1.drawnNumber =
        some (drawnOf rand) ∧
      (numberGame st uname wager number rand).1.winnings =
        some (if (JNum.fin ((drawnOf rand : ℤ) : ℚ)).jeq (parseInt number)
              then JNum.fin (10 * w) else JNum.fin 0)) ∧
    (∀ rand : ℚ,
      (drawnOf rand = 7 →
        userBalance (numberGame bobState "Bob" (JsVal.num (JNum.fin 40))
          (JsVal.num (JNum.fin 7)) rand).2 "Bob" = some (JNum.fin 410)) ∧
      (drawnOf rand ≠ 7 →
        userBalance (numberGame bobState "Bob" (JsVal.num (JNum.fin 40))
          (JsVal.num (JNum.fin 7)) rand).2 "Bob" = some (JNum.fin 10))) := by
  have ht : jsTrunc (7 : ℚ) = 7 := by norm_num [jsTrunc]
  have hpick : ((parseInt (JsVal.num (JNum.fin 7))).jlt (JNum.fin 1) ||
      (parseInt (JsVal.num (JNum.fin 7))).jgt (JNum.fin 10)) = false := by
    simp only [parseInt, ht, JNum.jlt_fin_fin, JNum.jgt_fin_fin]
    norm_num
  refine ⟨?_, ?_, ?_⟩
  · intro rand h0 h1
    have hlow : (0 : ℤ) ≤ ⌊rand * 10⌋ := by
      apply Int.le_floor.mpr
      push_cast
      exact mul_nonneg h0 (by norm_num)
    have hup : ⌊rand * 10⌋ < 10 := by
      apply Int.floor_lt.mpr
      push_cast
      nlinarith
    unfold drawnOf
    omega
  · intro st uname u b w wager number rand hfind hb hw h0 hwb hpick2
    obtain ⟨_, h2, h3, _⟩ :=
      numberGame_ok st uname u b w wager number rand hfind hb hw h0 hwb hpick2
    exact ⟨h2, h3⟩
  · intro rand
    obtain ⟨_, _, _, h4⟩ :=
      numberGame_ok bobState "Bob" bobUser 50 40 (JsVal.num (JNum.fin 40))
        (JsVal.num (JNum.fin 7)) rand rfl rfl rfl (by norm_num) (by norm_num)
        hpick
    constructor
    · intro hd
      rw [h4]
      have hjeq : (JNum.fin ((drawnOf rand : ℤ) : ℚ)).jeq
          (parseInt (JsVal.num (JNum.fin 7))) = true := by
        simp only [parseInt, ht, hd, JNum.jeq_fin_fin, decide_eq_true_eq]
      rw [hjeq]
      norm_num
    · intro hd
      rw [h4]
      have hjeq : (JNum.fin ((drawnOf rand : ℤ) : ℚ)).jeq
          (parseInt (JsVal.num (JNum.fin 7))) = false := by
        simp only [parseInt, ht, JNum.jeq_fin_fin, decide_eq_false_iff_not]
        intro hcast
        apply hd
        exact_mod_cast hcast
      rw [hjeq]
      norm_num

/-- Witness for C8: the draw for `rand = 13/20` is 7, within `[1,10]`, and
forces the match — Bob ends at 410; the draw for `rand = 0` is 1 and Bob ends
at 10. -/
theorem C8_witness :
    (1 ≤ drawnOf (13/20) ∧ drawnOf (13/20) ≤ 10) ∧
    userBalance (numberGame bobState "Bob" (JsVal.num (JNum.fin 40))
      (JsVal.num (JNum.fin 7)) (13/20)).2 "Bob" = some (JNum.fin 410) ∧
    userBalance (numberGame bobState "Bob" (JsVal.num (JNum.fin 40))
      (JsVal.num (JNum.fin 7)) 0).2 "Bob" = some (JNum.fin 10) := by
  have h := C8_number_draw
  have hd7 : drawnOf (13/20) = 7 := by norm_num [drawnOf, Int.floor_eq_iff]
  have hd0 : drawnOf 0 = 1 := by norm_num [drawnOf]
  refine ⟨h.1 (13/20) (by norm_num) (by norm_num), ?_, ?_⟩
  · exact (h.2.2 (13/20)).1 hd7
  · exact (h.2.2 0).2 (by rw [hd0]; decide)

/-- A state holding one pending linking code "ABC123" issued at time 0. -/
def linkState : ServerState :=
  { users := [], payments := [], commands := [],
    pendingLinks := [("ABC123",
      { discordId := "d1", discordTag := "tag#1", timestamp := 0 })] }

/-- C9: a linking code is single-use and expires after 24 hours.  If the code
is present and unexpired, linking succeeds (200) and a second well-formed
link attempt with the same code fails with the invalid-code error and changes
nothing; if `now` is more than 24 hours (in milliseconds) past the code's
timestamp, the attempt fails with the expiry error and the code is removed
from the pending-links store. -/
theorem C9_linking_code (st : ServerState) (username username2 code : String)
    (now now2 : ℤ) (uid uid2 : String) (kv : String × LinkData)
    (hu : (username == "") = false) (hu2 : (username2 == "") = false)
    (hc : (code == "") = false)
    (hl : st.pendingLinks.find? (fun kv2 => kv2.1 == code) = some kv) :
    (¬ 24 * 60 * 60 * 1000 < now - kv.2.timestamp →
      (linkAccount st username code now uid).1.status = 200 ∧
      (linkAccount (linkAccount st username code now uid).2 username2 code
        now2 uid2).1.status = 400 ∧
      (linkAccount (linkAccount st username code now uid).2 username2 code
        now2 uid2).1.error = some "Invalid or expired linking code" ∧
      (linkAccount (linkAccount st username code now uid).2 username2 code
        now2 uid2).2 = (linkAccount st username code now uid).2) ∧
    (24 * 60 * 60 * 1000 < now - kv.2.timestamp →
      (linkAccount st username code now uid).1.status = 400 ∧
      (linkAccount st username code now uid).1.error =
        some "Linking code expired" ∧
      (linkAccount st username code now uid).2.pendingLinks.find?
        (fun kv2 => kv2.1 == code) = none) := by
  constructor
  · intro hexp
    obtain ⟨h1, h2⟩ := link_ok st username code now uid kv hu hc hl hexp
    obtain ⟨h3, h4, h5⟩ := link_invalid (linkAccount st username code now
      uid).2 username2 code now2 uid2 hu2 hc h2
    exact ⟨h1, h3, h4, h5⟩
  · intro hexp
    obtain ⟨h1, h2, h3, _⟩ := link_expired st username code now uid kv hu hc
      hl hexp
    exact ⟨h1, h2, h3⟩

/-- Witness for C9: with code "ABC123" issued at time 0, linking "Steve" at
time 1000 succeeds and reusing the code fails as invalid; attempting the link
at time 10^9 instead fails as expired and the code is gone. -/
theorem C9_witness :
    (linkAccount linkState "Steve" "ABC123" 1000 "u7").1.status = 200 ∧
    (linkAccount (linkAccount linkState "Steve" "ABC123" 1000 "u7").2 "Steve"
      "ABC123" 2000 "u8").1.status = 400 ∧
    (linkAccount (linkAccount linkState "Steve" "ABC123" 1000 "u7").2 "Steve"
      "ABC123" 2000 "u8").1.error = some "Invalid or expired linking code" ∧
    (linkAccount linkState "Steve" "ABC123" 1000000000 "u7").1.status = 400 ∧
    (linkAccount linkState "Steve" "ABC123" 1000000000 "u7").1.error =
      some "Linking code expired" ∧
    (linkAccount linkState "Steve" "ABC123" 1000000000 "u7").2.pendingLinks.find?
      (fun kv2 => kv2.1 == "ABC123") = none := by
  obtain ⟨g1, g2, g3, _⟩ :=
    (C9_linking_code linkState "Steve" "Steve" "ABC123" 1000 2000 "u7" "u8"
      ("ABC123", { discordId := "d1", discordTag := "tag#1", timestamp := 0 })
      rfl rfl rfl rfl).1 (by decide)
  obtain ⟨g4, g5, g6⟩ :=
    (C9_linking_code linkState "Steve" "Steve" "ABC123" 1000000000 0 "u7" "u8"
      ("ABC123", { discordId := "d1", discordTag := "tag#1", timestamp := 0 })
      rfl rfl rfl rfl).2 (by decide)
  exact ⟨g1, g2, g3, g4, g5, g6⟩

/-- C10: a wager field that does not parse as a number defeats the wager
validation on all three game endpoints.  Eve has balance 100; with
`betAmount = NaN` both `betAmount <= 0` and `betAmount > balance` are false,
so the guard passes, each call succeeds (200), and Eve's stored balance is the
non-number NaN afterwards (blackjack with wager "abc", plinko with a missing
wager, number with wager "abc" and a valid pick). -/
theorem C10_nan_wager_defeats_validation :
    ((blackjack eveState "Eve" (JsVal.str "abc") (JsVal.bool false) JsVal.undef
        JsVal.undef).1.status = 200 ∧
      userBalance (blackjack eveState "Eve" (JsVal.str "abc")
        (JsVal.bool false) JsVal.undef JsVal.undef).2 "Eve" = some JNum.nan) ∧
    ((plinko eveState "Eve" JsVal.undef (JsVal.num (JNum.fin 0))
        JsVal.undef).1.status = 200 ∧
      userBalance (plinko eveState "Eve" JsVal.undef (JsVal.num (JNum.fin 0))
        JsVal.undef).2 "Eve" = some JNum.nan) ∧
    ((numberGame eveState "Eve" (JsVal.str "abc") (JsVal.num (JNum.fin 7))
        0).1.status = 200 ∧
      userBalance (numberGame eveState "Eve" (JsVal.str "abc")
        (JsVal.num (JNum.fin 7)) 0).2 "Eve" = some JNum.nan) := by
  have hd : drawnOf 0 = 1 := by norm_num [drawnOf]
  have hab : parseFloat (JsVal.str "abc") = JNum.nan := rfl
  have ht : jsTrunc (7 : ℚ) = 7 := by norm_num [jsTrunc]
  refine ⟨⟨rfl, rfl⟩, ⟨rfl, rfl⟩, rfl, ?_⟩
  have hfind : findUser eveState.users "Eve" = some eveUser := rfl
  have hguard : (JNum.nan.jle (JNum.fin 0) || JNum.nan.jgt (JNum.fin 100)) =
      false := rfl
  have hpick : ((parseInt (JsVal.num (JNum.fin 7))).jlt (JNum.fin 1) ||
      (parseInt (JsVal.num (JNum.fin 7))).jgt (JNum.fin 10)) = false := by
    simp only [parseInt, ht, JNum.jlt_fin_fin, JNum.jgt_fin_fin]
    norm_num
  have hwon : (JNum.fin ((drawnOf 0 : ℤ) : ℚ)).jeq
      (parseInt (JsVal.num (JNum.fin 7))) = false := by
    simp only [parseInt, ht, hd, JNum.jeq_fin_fin, decide_eq_false_iff_not]
    norm_num
  have hbal : eveUser.balance = JNum.fin 100 := rfl
  simp only [userBalance, numberGame, hfind, hab, hbal, hguard,
    Bool.false_eq_true, if_false, hpick]
  rw [findUser_updateUser eveState.users "Eve"
    (numberUpdate (parseInt (JsVal.num (JNum.fin 7))) (drawnOf 0) JNum.nan
      ((JNum.fin ((drawnOf 0 : ℤ) : ℚ)).jeq (parseInt (JsVal.num (JNum.fin 7)))))
    (fun v => rfl), hfind]
  simp only [Option.map_some, Option.map_some', numberUpdate, hwon,
    Bool.false_eq_true, if_false, hbal, JNum.sub_nan_right]
